import Mathlib

/-!
Verification of the manaserv character state engine against its
specification.  The definitions below are shallow embeddings of the C++
source files `src/game-server/character.cpp` and
`src/common/permissionmanager.cpp`; stateful methods become explicit
state-passing functions, and calls into collaborator components (handler
cancel hooks, attribute setters, warps) become explicit effect lists so
that theorems can observe them.
-/

namespace Manaserv

/-! ## Transaction guard (CharacterComponent, character.cpp lines 224-281)

`mTransaction : TransactionType` and `mTransactionHandler : void *` form
the transaction guard.  The opaque handler pointer is modelled as an
`Option Handler`, where a `Handler` remembers its concrete kind (`Trade *`
or `BuySell *`) and an identity; `none` is the null pointer.
`cancel()` dispatches to the handler are recorded in an event list. -/

/-- enum TransactionType from character.h: { TRANS_NONE, TRANS_TRADE,
TRANS_BUYSELL }. -/
inductive TransactionType where
  | TRANS_NONE
  | TRANS_TRADE
  | TRANS_BUYSELL
deriving DecidableEq, Repr

/-- A concrete transaction handler: either a `Trade *` or a `BuySell *`,
identified by an abstract numeric identity. -/
inductive Handler where
  | trade (id : Nat)
  | buysell (id : Nat)
deriving DecidableEq, Repr

/-- The transaction-relevant fields of CharacterComponent:
`mTransaction` (initialised to TRANS_NONE) and `mTransactionHandler`
(initialised to nullptr). -/
structure TransState where
  mTransaction : TransactionType
  mTransactionHandler : Option Handler
deriving DecidableEq, Repr

/-- Constructor state (character.cpp lines 65-81): `mTransactionHandler(nullptr)`
and `mTransaction(TRANS_NONE)`. -/
def initTransState : TransState :=
  { mTransaction := .TRANS_NONE, mTransactionHandler := none }

/-- CharacterComponent::cancelTransaction (character.cpp lines 224-239):
saves the tag, resets `mTransaction` to TRANS_NONE, then dispatches
`cancel()` to the handler cast according to the saved tag (no dispatch
when the tag was TRANS_NONE).  The handler field itself is left
untouched.  The returned list records each handler value a `cancel()`
was dispatched to, in order. -/
def cancelTransaction (s : TransState) : TransState × List (Option Handler) :=
  let t := s.mTransaction
  let s1 := { s with mTransaction := .TRANS_NONE }
  match t with
  | .TRANS_TRADE => (s1, [s.mTransactionHandler])
  | .TRANS_BUYSELL => (s1, [s.mTransactionHandler])
  | .TRANS_NONE => (s1, [])

/-- CharacterComponent::getTrading (character.cpp lines 241-245): the
handler when the tag is TRANS_TRADE, null otherwise. -/
def getTrading (s : TransState) : Option Handler :=
  if s.mTransaction = .TRANS_TRADE then s.mTransactionHandler else none

/-- CharacterComponent::getBuySell (character.cpp lines 247-251): the
handler when the tag is TRANS_BUYSELL, null otherwise. -/
def getBuySell (s : TransState) : Option Handler :=
  if s.mTransaction = .TRANS_BUYSELL then s.mTransactionHandler else none

/-- CharacterComponent::setTrading (character.cpp lines 253-266).  The
argument is a `Trade *`: `some i` is a non-null pointer to the trade with
identity `i`.  A non-null argument first runs `cancelTransaction()` and
then adopts {TRANS_TRADE, t}; a null argument asserts the current tag is
TRANS_NONE or TRANS_TRADE (the `none` result is the failed assertion) and
resets the tag, leaving the handler field untouched. -/
def setTrading (s : TransState) (t : Option Nat) :
    Option (TransState × List (Option Handler)) :=
  match t with
  | some i =>
      let r := cancelTransaction s
      some ({ r.1 with mTransactionHandler := some (.trade i),
                       mTransaction := .TRANS_TRADE }, r.2)
  | none =>
      if s.mTransaction = .TRANS_NONE ∨ s.mTransaction = .TRANS_TRADE then
        some ({ s with mTransaction := .TRANS_NONE }, [])
      else none

/-- CharacterComponent::setBuySell (character.cpp lines 268-281),
symmetric to `setTrading` for the BuySelling state. -/
def setBuySell (s : TransState) (t : Option Nat) :
    Option (TransState × List (Option Handler)) :=
  match t with
  | some i =>
      let r := cancelTransaction s
      some ({ r.1 with mTransactionHandler := some (.buysell i),
                       mTransaction := .TRANS_BUYSELL }, r.2)
  | none =>
      if s.mTransaction = .TRANS_NONE ∨ s.mTransaction = .TRANS_BUYSELL then
        some ({ s with mTransaction := .TRANS_NONE }, [])
      else none

/-- One successful (non-assertion-failing) call on the transaction guard:
`setTrading`, `setBuySell` (with any argument) or `cancelTransaction`. -/
inductive TStep : TransState → TransState → Prop where
  | setTradingStep {s s2 : TransState} (t : Option Nat)
      (evs : List (Option Handler)) :
      setTrading s t = some (s2, evs) → TStep s s2
  | setBuySellStep {s s2 : TransState} (t : Option Nat)
      (evs : List (Option Handler)) :
      setBuySell s t = some (s2, evs) → TStep s s2
  | cancelStep {s : TransState} : TStep s (cancelTransaction s).1

/-- Transaction-guard states reachable from the constructor state via any
sequence of guard calls. -/
inductive TReachable : TransState → Prop where
  | init : TReachable initTransState
  | step {s s2 : TransState} : TReachable s → TStep s s2 → TReachable s2

/-! ## Disconnection (character.cpp lines 411-422)

`CharacterComponent::disconnected` clears `mConnected`; a dead character
is respawned in place (respawn, lines 147-175, never touches the
transaction guard), a living one is removed from the world via
`GameState::remove`.  The action state of the underlying being is passed
in as a parameter. -/

/-- enum BeingAction (being.h, game-server): the action states of a
being; only DEAD and not-DEAD matter to the embedded code. -/
inductive BeingAction where
  | STAND
  | WALK
  | ATTACK
  | SIT
  | DEAD
  | HURT
deriving DecidableEq, Repr

/-- Modelled from the spec: `GameState::remove` (game-server/state.cpp is
not under src/).  Per spec section 5, "disconnecting a character
implicitly cancels any active transaction", and section 4.4 routes a
living character's disconnection through removal from the live world; so
the character branch of removal dispatches `cancelTransaction`. -/
def gameStateRemove (s : TransState) : TransState × List (Option Handler) :=
  cancelTransaction s

/-- CharacterComponent::disconnected (character.cpp lines 411-422): set
`mConnected = false`; if the being's action is DEAD, respawn it (respawn
does not touch the transaction guard), otherwise remove the entity from
the world.  Returns the new `mConnected`, the new transaction state, and
the `cancel()` dispatches performed. -/
def disconnected (action : BeingAction) (s : TransState) :
    Bool × TransState × List (Option Handler) :=
  if action = .DEAD then
    (false, s, [])
  else
    let r := gameStateRemove s
    (false, r.1, r.2)

/-! ## Point economy (character.cpp lines 345-381)

`useCharacterPoint` and `useCorrectionPoint` consult the attribute
manager's modifiability table and the being's attribute store; both are
external collaborators and enter as function parameters.  Calls out of
the component (`setAttribute`, `updateDerivedAttributes`) are recorded as
effects, in call order.  C++ `int` counters are embedded as `Int`,
`double` attribute values as `Rat`. -/

/-- enum AttribmodResponseCode (defines.h). -/
inductive AttribmodResponseCode where
  | ATTRIBMOD_OK
  | ATTRIBMOD_INVALID_ATTRIBUTE
  | ATTRIBMOD_NO_POINTS_LEFT
  | ATTRIBMOD_DENIED
deriving DecidableEq, Repr

/-- A call the point-economy functions make into the being component. -/
inductive Effect where
  | setAttribute (attr : Int) (value : Rat)
  | updateDerivedAttributes (attr : Int)
deriving DecidableEq, Repr

/-- The point counters of CharacterComponent: `mAttributePoints` and
`mCorrectionPoints` (both C++ `int`). -/
structure PointsState where
  mAttributePoints : Int
  mCorrectionPoints : Int
deriving DecidableEq, Repr

/-- CharacterComponent::useCharacterPoint (character.cpp lines 345-361):
fail with INVALID_ATTRIBUTE when the attribute is not directly
modifiable, with NO_POINTS_LEFT when `mAttributePoints` is zero;
otherwise decrement the points, then `setAttribute(entity, attribute,
base + 1)` followed by `updateDerivedAttributes(entity, attribute)`. -/
def useCharacterPoint (isAttributeDirectlyModifiable : Int → Bool)
    (getAttributeBase : Int → Rat) (s : PointsState) (attr : Int) :
    AttribmodResponseCode × PointsState × List Effect :=
  if isAttributeDirectlyModifiable attr = false then
    (.ATTRIBMOD_INVALID_ATTRIBUTE, s, [])
  else if s.mAttributePoints = 0 then
    (.ATTRIBMOD_NO_POINTS_LEFT, s, [])
  else
    let s1 := { s with mAttributePoints := s.mAttributePoints - 1 }
    let base := getAttributeBase attr
    (.ATTRIBMOD_OK, s1,
      [.setAttribute attr (base + 1), .updateDerivedAttributes attr])

/-- CharacterComponent::useCorrectionPoint (character.cpp lines 363-381):
fail with INVALID_ATTRIBUTE when the attribute is not directly
modifiable, with NO_POINTS_LEFT when `mCorrectionPoints` is zero, with
DENIED when the attribute base is `<= 1`; otherwise decrement the
correction points, increment the attribute points, and
`setAttribute(entity, attribute, base - 1)` — with no call to
`updateDerivedAttributes`. -/
def useCorrectionPoint (isAttributeDirectlyModifiable : Int → Bool)
    (getAttributeBase : Int → Rat) (s : PointsState) (attr : Int) :
    AttribmodResponseCode × PointsState × List Effect :=
  if isAttributeDirectlyModifiable attr = false then
    (.ATTRIBMOD_INVALID_ATTRIBUTE, s, [])
  else if s.mCorrectionPoints = 0 then
    (.ATTRIBMOD_NO_POINTS_LEFT, s, [])
  else if getAttributeBase attr ≤ 1 then
    (.ATTRIBMOD_DENIED, s, [])
  else
    let s1 := { s with mCorrectionPoints := s.mCorrectionPoints - 1 }
    let s2 := { s1 with mAttributePoints := s1.mAttributePoints + 1 }
    let base := getAttributeBase attr
    (.ATTRIBMOD_OK, s2, [.setAttribute attr (base - 1)])

/-! ## Respawn (character.cpp lines 147-175) -/

/-- Lookup in an association list keyed by strings, mirroring lookup in a
`std::map<std::string, _>` (first — and, keys being unique, only —
matching entry). -/
def assocLookup {β : Type} : List (String × β) → String → Option β
  | [], _ => none
  | (k, v) :: rest, key => if k = key then some v else assocLookup rest key

/-- Modelled from the spec: `Configuration::getValue`
(common/configuration.h is not under src/) returns the configured value
for the key, or the supplied default when the key is not configured
("configuration values with documented defaults", spec section 4.4). -/
def getValue (cfg : List (String × Int)) (key : String) (deflt : Int) : Int :=
  (assocLookup cfg key).getD deflt

/-- Symbolic attribute id for ATTR_HP (the numeric value, defined outside
src/, is irrelevant to the embedded code). -/
def ATTR_HP : Int := 14

/-- A call `respawn` makes into its collaborators, in call order. -/
inductive RespawnEffect where
  | logWarnNotDead
  | setAction (a : BeingAction)
  | executeDeathAccepted
  | setAttribute (attr : Int) (value : Rat)
  | enqueueWarp (map x y : Int)
deriving DecidableEq, Repr

/-- CharacterComponent::respawn (character.cpp lines 147-175): a
non-dead being only gets a warning logged; a dead one is first set to
STAND, then the death-accepted script callback runs when registered
(`deathAcceptedCallbackValid`); with no callback registered the fallback
sets ATTR_HP to the modified ATTR_MAX_HP value (`maxHp`) and enqueues a
warp to `char_respawnMap`/`char_respawnX`/`char_respawnY` with defaults
1/1024/1024. -/
def respawn (cfg : List (String × Int)) (deathAcceptedCallbackValid : Bool)
    (action : BeingAction) (maxHp : Rat) : List RespawnEffect :=
  if action ≠ .DEAD then
    [.logWarnNotDead]
  else if deathAcceptedCallbackValid then
    [.setAction .STAND, .executeDeathAccepted]
  else
    [.setAction .STAND, .setAttribute ATTR_HP maxHp,
     .enqueueWarp (getValue cfg "char_respawnMap" 1)
                  (getValue cfg "char_respawnX" 1024)
                  (getValue cfg "char_respawnY" 1024)]

/-! ## Attribute dirty set (character.cpp lines 283-320)

`mModifiedAttributes` is a `std::set<size_t>`: membership is
deduplicated and iteration is in increasing key order.  It is embedded
as a strictly sorted `List Nat` with ordered insertion. -/

/-- Ordered, deduplicating insertion into a strictly sorted list —
`std::set::insert`. -/
def setInsert : List Nat → Nat → List Nat
  | [], x => [x]
  | y :: ys, x =>
      if x < y then x :: y :: ys
      else if x = y then y :: ys
      else y :: setInsert ys x

/-- CharacterComponent::attributeChanged (character.cpp lines 311-320)
restricted to its dirty-set update: `mModifiedAttributes.insert(attr)`
(the accountHandler forwarding does not touch the dirty set). -/
def attributeChanged (dirty : List Nat) (attr : Nat) : List Nat :=
  setInsert dirty attr

/-- The dirty set after a sequence of attributeChanged notifications in
one tick, starting from the empty set left by the previous flush. -/
def dirtyAfter (muts : List Nat) : List Nat :=
  muts.foldl attributeChanged []

/-- CharacterComponent::sendStatus (character.cpp lines 283-297): write
one record {id, base*256, modified*256} per dirty attribute in dirty-set
iteration order, send the message only when some record was written
(`getLength() > 2`), and clear the set.  Returns the records, whether
the message was sent, and the cleared set. -/
def sendStatus (getAttributeBase getModifiedAttribute : Nat → Rat)
    (dirty : List Nat) : List (Nat × Rat × Rat) × Bool × List Nat :=
  (dirty.map (fun attr =>
      (attr, getAttributeBase attr * 256, getModifiedAttribute attr * 256)),
   !dirty.isEmpty, [])

/-! ## Permission manager (permissionmanager.cpp)

The `static std::map<std::string, unsigned char> permissions` table is
embedded as an association list with unique keys; the insertion position
of a fresh key (sorted in `std::map`, appended here) does not affect
lookup.  Masks are `Nat` — every mask the parser produces fits an
unsigned char. -/

/-- enum PermissionManager::Result (permissionmanager.hpp). -/
inductive PMResult where
  | PMR_ALLOWED
  | PMR_DENIED
  | PMR_UNKNOWN
deriving DecidableEq, Repr

/-- addPermission (permissionmanager.cpp lines 32-42): insert the mask
for a fresh name, or `|=` it into the existing entry. -/
def addPermission : List (String × Nat) → String → Nat → List (String × Nat)
  | [], permission, mask => [(permission, mask)]
  | (k, v) :: rest, permission, mask =>
      if k = permission then (k, v ||| mask) :: rest
      else (k, v) :: addPermission rest permission mask

/-- A `<class>` child element: its tag (`allow`, `deny`, `alias`, or
anything else) and its text content. -/
structure PermNode where
  tag : String
  content : String
deriving DecidableEq, Repr

/-- A child element of the `<permissions>` root: its tag (only `class`
elements are processed), its parsed `level` attribute
(`XML::getProperty(node, "level", 0)`), and its child elements. -/
structure ClassDecl where
  tag : String
  level : Int
  children : List PermNode
deriving DecidableEq, Repr

/-- The inner loop body of PermissionManager::reload (permissionmanager.cpp
lines 103-119): an `allow` child with non-empty content adds `classmask`
for its content; `deny` and `alias` children are parsed but ignored
("To be implemented"). -/
def applyPermNode (classmask : Nat) (perms : List (String × Nat))
    (c : PermNode) : List (String × Nat) :=
  if c.tag = "allow" ∧ c.content ≠ "" then addPermission perms c.content classmask
  else perms

/-- One iteration of the outer loop of PermissionManager::reload
(permissionmanager.cpp lines 82-120): skip non-`class` elements, log and
skip levels outside 1..8, otherwise fold the children with
`classmask = 0x01 << (level - 1)`. -/
def processClassNode (perms : List (String × Nat)) (node : ClassDecl) :
    List (String × Nat) :=
  if node.tag ≠ "class" then perms
  else if node.level < 1 ∨ node.level > 8 then perms
  else node.children.foldl (applyPermNode (1 <<< (node.level - 1).toNat)) perms

/-- The whole declaration loop of PermissionManager::reload over the root
element's children, mutating the live table in place (reload does not
clear the existing table first). -/
def reloadTable (nodes : List ClassDecl) (perms : List (String × Nat)) :
    List (String × Nat) :=
  nodes.foldl processClassNode perms

/-- PermissionManager::checkPermission (permissionmanager.cpp lines
132-147): PMR_UNKNOWN for an undeclared name, PMR_ALLOWED when
`character->getAccountLevel() & mask` is non-zero, PMR_DENIED
otherwise. -/
def checkPermission (perms : List (String × Nat)) (accountLevel : Nat)
    (permission : String) : PMResult :=
  match assocLookup perms permission with
  | none => .PMR_UNKNOWN
  | some mask => if accountLevel.land mask ≠ 0 then .PMR_ALLOWED else .PMR_DENIED

/-! ## Theorems -/

/-- C1: for every character with an active trade transaction with handler
h, `setBuySell(h2)` with non-null h2 first dispatches `cancel()` to h
(the dispatch list of the call is exactly the cancel to h, produced by
`cancelTransaction` on the pre-state, before the new pair is stored) and
only then adopts {BuySelling, h2}; afterwards `getTrading()` is null and
`getBuySell()` is h2. -/
theorem setBuySell_cancels_active_trade (s : TransState) (h i : Nat)
    (hTag : s.mTransaction = .TRANS_TRADE)
    (hH : s.mTransactionHandler = some (.trade h)) :
    setBuySell s (some i) =
      some ({ mTransaction := .TRANS_BUYSELL,
              mTransactionHandler := some (.buysell i) },
            [some (.trade h)]) ∧
    getTrading { mTransaction := .TRANS_BUYSELL,
                 mTransactionHandler := some (.buysell i) } = none ∧
    getBuySell { mTransaction := .TRANS_BUYSELL,
                 mTransactionHandler := some (.buysell i) } =
      some (.buysell i) := by
  refine ⟨?_, ?_, ?_⟩
  · simp [setBuySell, cancelTransaction, hTag, hH]
  · simp [getTrading]
  · simp [getBuySell]

theorem setBuySell_cancels_active_trade_witness :
    setBuySell { mTransaction := .TRANS_TRADE,
                 mTransactionHandler := some (.trade 7) } (some 9) =
      some ({ mTransaction := .TRANS_BUYSELL,
              mTransactionHandler := some (.buysell 9) },
            [some (.trade 7)]) ∧
    getTrading { mTransaction := .TRANS_BUYSELL,
                 mTransactionHandler := some (.buysell 9) } = none ∧
    getBuySell { mTransaction := .TRANS_BUYSELL,
                 mTransactionHandler := some (.buysell 9) } =
      some (.buysell 9) :=
  setBuySell_cancels_active_trade _ 7 9 rfl rfl

/-- C2 (amended): for every character in the Trade transaction state with
handler h whose being is NOT in the DEAD action state, `disconnected`
dispatches `cancel()` to h exactly once (through removal from the live
world).  A dead character takes the respawn branch instead, which
dispatches no cancel — see the counterexample. -/
theorem disconnected_cancels_trade_once (action : BeingAction)
    (s : TransState) (h : Nat) (hAct : action ≠ .DEAD)
    (hTag : s.mTransaction = .TRANS_TRADE)
    (hH : s.mTransactionHandler = some (.trade h)) :
    (disconnected action s).2.2 = [some (.trade h)] ∧
    ((disconnected action s).2.2).count (some (.trade h)) = 1 := by
  have hlist : (disconnected action s).2.2 = [some (.trade h)] := by
    simp [disconnected, hAct, gameStateRemove, cancelTransaction, hTag, hH]
  refine ⟨hlist, ?_⟩
  rw [hlist]
  simp

theorem disconnected_cancels_trade_once_witness :
    (disconnected .STAND
        { mTransaction := .TRANS_TRADE,
          mTransactionHandler := some (.trade 3) }).2.2 =
      [some (.trade 3)] ∧
    ((disconnected .STAND
        { mTransaction := .TRANS_TRADE,
          mTransactionHandler := some (.trade 3) }).2.2).count
      (some (.trade 3)) = 1 :=
  disconnected_cancels_trade_once .STAND _ 3 (by decide) rfl rfl

/-- C2 counterexample: a character in the Trade transaction state whose
being is DEAD is respawned by `disconnected` and its trade handler
receives zero `cancel()` dispatches, refuting "exactly once" for every
character in the Trade state. -/
theorem disconnected_dead_trade_no_cancel :
    (disconnected .DEAD
        { mTransaction := .TRANS_TRADE,
          mTransactionHandler := some (.trade 0) }).2.2 = [] ∧
    ((disconnected .DEAD
        { mTransaction := .TRANS_TRADE,
          mTransactionHandler := some (.trade 0) }).2.2).count
      (some (.trade 0)) = 0 := by
  refine ⟨rfl, rfl⟩

/-- The tag/handler consistency that actually holds on reachable
transaction-guard states: an active tag owns a non-null handler of the
matching kind, and with tag TRANS_NONE both accessors return null (the
raw handler field may retain a stale non-null pointer). -/
def TagHandlerInv (s : TransState) : Prop :=
  (s.mTransaction = .TRANS_TRADE →
     ∃ i, s.mTransactionHandler = some (.trade i)) ∧
  (s.mTransaction = .TRANS_BUYSELL →
     ∃ i, s.mTransactionHandler = some (.buysell i)) ∧
  (s.mTransaction = .TRANS_NONE → getTrading s = none ∧ getBuySell s = none)

theorem tstep_inv {s s2 : TransState} (h : TStep s s2) : TagHandlerInv s2 := by
  cases h with
  | setTradingStep t evs heq =>
      cases t with
      | some i =>
          simp only [setTrading, Option.some.injEq, Prod.mk.injEq] at heq
          obtain ⟨h1, -⟩ := heq
          subst h1
          simp [TagHandlerInv, getTrading, getBuySell]
      | none =>
          simp only [setTrading] at heq
          split at heq
          · simp only [Option.some.injEq, Prod.mk.injEq] at heq
            obtain ⟨h1, -⟩ := heq
            subst h1
            simp [TagHandlerInv, getTrading, getBuySell]
          · exact Option.noConfusion heq
  | setBuySellStep t evs heq =>
      cases t with
      | some i =>
          simp only [setBuySell, Option.some.injEq, Prod.mk.injEq] at heq
          obtain ⟨h1, -⟩ := heq
          subst h1
          simp [TagHandlerInv, getTrading, getBuySell]
      | none =>
          simp only [setBuySell] at heq
          split at heq
          · simp only [Option.some.injEq, Prod.mk.injEq] at heq
            obtain ⟨h1, -⟩ := heq
            subst h1
            simp [TagHandlerInv, getTrading, getBuySell]
          · exact Option.noConfusion heq
  | cancelStep =>
      rcases s with ⟨tag, hd⟩
      cases tag <;>
        simp [TagHandlerInv, cancelTransaction, getTrading, getBuySell]

/-- C3 (amended): every transaction-guard state reachable from
construction satisfies `TagHandlerInv`: tag TRANS_TRADE or TRANS_BUYSELL
implies a non-null handler of the matching kind, and tag TRANS_NONE
implies `getTrading()` and `getBuySell()` both return null.  The original
claim's "tag None implies the handler field is null" fails: the field
keeps its stale value after a cancellation — see the counterexample. -/
theorem reachable_tag_handler_consistent (s : TransState)
    (hs : TReachable s) : TagHandlerInv s := by
  induction hs with
  | init => simp [TagHandlerInv, initTransState, getTrading, getBuySell]
  | step _ hstep _ => exact tstep_inv hstep

theorem reachable_tag_handler_consistent_witness :
    TagHandlerInv initTransState :=
  reachable_tag_handler_consistent initTransState TReachable.init

/-- C3 counterexample: `setTrading(h)` followed by `cancelTransaction()`
reaches a state with tag TRANS_NONE whose handler field is still the
non-null stale handler, refuting "tag None implies the handler is
null". -/
theorem stale_handler_after_cancel :
    TReachable { mTransaction := .TRANS_NONE,
                 mTransactionHandler := some (.trade 0) } ∧
    ({ mTransaction := .TRANS_NONE,
       mTransactionHandler := some (.trade 0) } : TransState).mTransaction =
      .TRANS_NONE ∧
    ({ mTransaction := .TRANS_NONE,
       mTransactionHandler := some (.trade 0) } : TransState).mTransactionHandler
      ≠ none := by
  refine ⟨?_, rfl, by simp⟩
  have h1 : TStep initTransState
      { mTransaction := .TRANS_TRADE, mTransactionHandler := some (.trade 0) } :=
    TStep.setTradingStep (some 0) [] rfl
  have h2 : TStep
      ({ mTransaction := .TRANS_TRADE,
         mTransactionHandler := some (.trade 0) } : TransState)
      { mTransaction := .TRANS_NONE, mTransactionHandler := some (.trade 0) } :=
    TStep.cancelStep
  exact TReachable.step (TReachable.step TReachable.init h1) h2

/-- C4: `useCharacterPoint` returns INVALID_ATTRIBUTE and changes nothing
when the attribute is not directly modifiable; returns NO_POINTS_LEFT and
changes nothing when it is modifiable but the point balance is zero;
otherwise decrements the point balance by one, sets the attribute base
one higher, triggers derived-attribute recomputation, and returns OK. -/
theorem useCharacterPoint_spec (modif : Int → Bool) (base : Int → Rat)
    (s : PointsState) (attr : Int) :
    (modif attr = false →
       useCharacterPoint modif base s attr =
         (.ATTRIBMOD_INVALID_ATTRIBUTE, s, [])) ∧
    (modif attr = true → s.mAttributePoints = 0 →
       useCharacterPoint modif base s attr =
         (.ATTRIBMOD_NO_POINTS_LEFT, s, [])) ∧
    (modif attr = true → s.mAttributePoints ≠ 0 →
       useCharacterPoint modif base s attr =
         (.ATTRIBMOD_OK,
          { s with mAttributePoints := s.mAttributePoints - 1 },
          [.setAttribute attr (base attr + 1),
           .updateDerivedAttributes attr])) := by
  refine ⟨fun hm => ?_, fun hm hp => ?_, fun hm hp => ?_⟩
  · simp [useCharacterPoint, hm]
  · simp [useCharacterPoint, hm, hp]
  · simp [useCharacterPoint, hm, hp]

theorem useCharacterPoint_spec_witness :
    ((fun _ => false : Int → Bool) 2 = false →
       useCharacterPoint (fun _ => false) (fun _ => 5) ⟨4, 2⟩ 2 =
         (.ATTRIBMOD_INVALID_ATTRIBUTE, ⟨4, 2⟩, [])) ∧
    ((fun _ => false : Int → Bool) 2 = true → (⟨4, 2⟩ : PointsState).mAttributePoints = 0 →
       useCharacterPoint (fun _ => false) (fun _ => 5) ⟨4, 2⟩ 2 =
         (.ATTRIBMOD_NO_POINTS_LEFT, ⟨4, 2⟩, [])) ∧
    ((fun _ => false : Int → Bool) 2 = true → (⟨4, 2⟩ : PointsState).mAttributePoints ≠ 0 →
       useCharacterPoint (fun _ => false) (fun _ => 5) ⟨4, 2⟩ 2 =
         (.ATTRIBMOD_OK,
          { (⟨4, 2⟩ : PointsState) with mAttributePoints := (⟨4, 2⟩ : PointsState).mAttributePoints - 1 },
          [.setAttribute 2 ((fun _ => (5 : Rat)) 2 + 1),
           .updateDerivedAttributes 2])) :=
  useCharacterPoint_spec (fun _ => false) (fun _ => 5) ⟨4, 2⟩ 2

/-- C5: for a directly modifiable attribute and a non-zero correction
point balance, `useCorrectionPoint` returns DENIED and changes neither
point counter nor the attribute when the base is 1 or less; otherwise it
decrements the correction points, increments the attribute points, sets
the attribute base one lower, and returns OK. -/
theorem useCorrectionPoint_spec (modif : Int → Bool) (base : Int → Rat)
    (s : PointsState) (attr : Int) (hm : modif attr = true)
    (hc : s.mCorrectionPoints ≠ 0) :
    (base attr ≤ 1 →
       useCorrectionPoint modif base s attr = (.ATTRIBMOD_DENIED, s, [])) ∧
    (1 < base attr →
       useCorrectionPoint modif base s attr =
         (.ATTRIBMOD_OK,
          { mAttributePoints := s.mAttributePoints + 1,
            mCorrectionPoints := s.mCorrectionPoints - 1 },
          [.setAttribute attr (base attr - 1)])) := by
  constructor
  · intro hb
    simp [useCorrectionPoint, hm, hc, hb]
  · intro hb
    simp [useCorrectionPoint, hm, hc, not_le.mpr hb]

theorem useCorrectionPoint_spec_witness :
    ((fun _ => (1 : Rat)) 2 ≤ 1 →
       useCorrectionPoint (fun _ => true) (fun _ => 1) ⟨4, 2⟩ 2 =
         (.ATTRIBMOD_DENIED, ⟨4, 2⟩, [])) ∧
    (1 < (fun _ => (1 : Rat)) 2 →
       useCorrectionPoint (fun _ => true) (fun _ => 1) ⟨4, 2⟩ 2 =
         (.ATTRIBMOD_OK,
          { mAttributePoints := (⟨4, 2⟩ : PointsState).mAttributePoints + 1,
            mCorrectionPoints := (⟨4, 2⟩ : PointsState).mCorrectionPoints - 1 },
          [.setAttribute 2 ((fun _ => (1 : Rat)) 2 - 1)])) :=
  useCorrectionPoint_spec (fun _ => true) (fun _ => 1) ⟨4, 2⟩ 2 rfl
    (by decide)

/-- C10: a successful `useCorrectionPoint` emits exactly one
`setAttribute` call (lowering the base by one) and never calls
`updateDerivedAttributes`; a successful `useCharacterPoint` does call
`updateDerivedAttributes` — the asymmetry is real. -/
theorem useCorrectionPoint_no_derived_update (modif : Int → Bool)
    (base : Int → Rat) (s : PointsState) (attr : Int) :
    ((useCorrectionPoint modif base s attr).1 = .ATTRIBMOD_OK →
       (useCorrectionPoint modif base s attr).2.2 =
         [.setAttribute attr (base attr - 1)] ∧
       ∀ a, Effect.updateDerivedAttributes a ∉
         (useCorrectionPoint modif base s attr).2.2) ∧
    ((useCharacterPoint modif base s attr).1 = .ATTRIBMOD_OK →
       Effect.updateDerivedAttributes attr ∈
         (useCharacterPoint modif base s attr).2.2) := by
  constructor
  · intro hok
    unfold useCorrectionPoint at hok ⊢
    split_ifs at hok ⊢
    simp_all
  · intro hok
    unfold useCharacterPoint at hok ⊢
    split_ifs at hok ⊢
    simp_all

theorem useCorrectionPoint_no_derived_update_witness :
    ((useCorrectionPoint (fun _ => true) (fun _ => 5) ⟨4, 2⟩ 2).1 =
        .ATTRIBMOD_OK →
       (useCorrectionPoint (fun _ => true) (fun _ => 5) ⟨4, 2⟩ 2).2.2 =
         [.setAttribute 2 ((fun _ => (5 : Rat)) 2 - 1)] ∧
       ∀ a, Effect.updateDerivedAttributes a ∉
         (useCorrectionPoint (fun _ => true) (fun _ => 5) ⟨4, 2⟩ 2).2.2) ∧
    ((useCharacterPoint (fun _ => true) (fun _ => 5) ⟨4, 2⟩ 2).1 =
        .ATTRIBMOD_OK →
       Effect.updateDerivedAttributes 2 ∈
         (useCharacterPoint (fun _ => true) (fun _ => 5) ⟨4, 2⟩ 2).2.2) :=
  useCorrectionPoint_no_derived_update (fun _ => true) (fun _ => 5) ⟨4, 2⟩ 2

/-- C6: `respawn` on a non-dead being only logs a warning — no attribute,
action-state, or position effect; on a dead being with no death-accepted
callback it first restores STAND, then sets ATTR_HP to the modified
max-HP value and warps to the configured respawn point, whose
coordinates default to map 1, x=1024, y=1024 when the respective keys
are not configured. -/
theorem respawn_spec (cfg : List (String × Int)) (dv : Bool)
    (action : BeingAction) (maxHp : Rat) :
    (action ≠ .DEAD → respawn cfg dv action maxHp = [.logWarnNotDead]) ∧
    (action = .DEAD → dv = false →
       respawn cfg dv action maxHp =
         [.setAction .STAND, .setAttribute ATTR_HP maxHp,
          .enqueueWarp (getValue cfg "char_respawnMap" 1)
                       (getValue cfg "char_respawnX" 1024)
                       (getValue cfg "char_respawnY" 1024)]) ∧
    (assocLookup cfg "char_respawnMap" = none →
       getValue cfg "char_respawnMap" 1 = 1) ∧
    (assocLookup cfg "char_respawnX" = none →
       getValue cfg "char_respawnX" 1024 = 1024) ∧
    (assocLookup cfg "char_respawnY" = none →
       getValue cfg "char_respawnY" 1024 = 1024) := by
  refine ⟨fun ha => ?_, fun ha hd => ?_, fun hc => ?_, fun hc => ?_,
      fun hc => ?_⟩
  · simp [respawn, ha]
  · simp [respawn, ha, hd]
  · simp [getValue, hc]
  · simp [getValue, hc]
  · simp [getValue, hc]

theorem respawn_spec_witness :
    ((BeingAction.STAND ≠ .DEAD →
        respawn [] false .STAND 40 = [.logWarnNotDead]) ∧
     (BeingAction.STAND = .DEAD → false = false →
        respawn [] false .STAND 40 =
          [.setAction .STAND, .setAttribute ATTR_HP 40,
           .enqueueWarp (getValue [] "char_respawnMap" 1)
                        (getValue [] "char_respawnX" 1024)
                        (getValue [] "char_respawnY" 1024)]) ∧
     (assocLookup ([] : List (String × Int)) "char_respawnMap" = none →
        getValue [] "char_respawnMap" 1 = 1) ∧
     (assocLookup ([] : List (String × Int)) "char_respawnX" = none →
        getValue [] "char_respawnX" 1024 = 1024) ∧
     (assocLookup ([] : List (String × Int)) "char_respawnY" = none →
        getValue [] "char_respawnY" 1024 = 1024)) ∧
    respawn [] false .DEAD 40 =
      [.setAction .STAND, .setAttribute ATTR_HP 40, .enqueueWarp 1 1024 1024] :=
  ⟨respawn_spec [] false .STAND 40,
   ((respawn_spec [] false .DEAD 40).2.1 rfl rfl).trans (by rfl)⟩

theorem mem_setInsert (s : List Nat) (x a : Nat) :
    a ∈ setInsert s x ↔ a = x ∨ a ∈ s := by
  induction s with
  | nil => simp [setInsert]
  | cons y ys ih =>
      simp only [setInsert]
      split_ifs with h1 h2
      · simp only [List.mem_cons]
      · subst h2
        simp only [List.mem_cons]
        tauto
      · simp only [List.mem_cons, ih]
        tauto

theorem sorted_setInsert (s : List Nat) (x : Nat)
    (hs : s.Pairwise (· < ·)) : (setInsert s x).Pairwise (· < ·) := by
  induction s with
  | nil => simp [setInsert]
  | cons y ys ih =>
      rw [List.pairwise_cons] at hs
      obtain ⟨hy, hys⟩ := hs
      simp only [setInsert]
      split_ifs with h1 h2
      · refine List.Pairwise.cons ?_ (List.Pairwise.cons hy hys)
        intro b hb
        rcases List.mem_cons.mp hb with rfl | hb2
        · exact h1
        · exact h1.trans (hy b hb2)
      · exact List.Pairwise.cons hy hys
      · refine List.Pairwise.cons ?_ (ih hys)
        intro b hb
        rcases (mem_setInsert ys x b).mp hb with rfl | hb2
        · omega
        · exact hy b hb2

theorem dirty_foldl_mem (muts : List Nat) (s : List Nat) (a : Nat) :
    a ∈ muts.foldl attributeChanged s ↔ a ∈ s ∨ a ∈ muts := by
  induction muts generalizing s with
  | nil => simp
  | cons m ms ih =>
      simp only [List.foldl_cons, ih, attributeChanged, mem_setInsert,
        List.mem_cons]
      tauto

theorem dirty_foldl_sorted (muts : List Nat) (s : List Nat)
    (hs : s.Pairwise (· < ·)) :
    (muts.foldl attributeChanged s).Pairwise (· < ·) := by
  induction muts generalizing s with
  | nil => simpa
  | cons m ms ih =>
      simp only [List.foldl_cons]
      exact ih (attributeChanged s m) (sorted_setInsert s m hs)

/-- C7: for every sequence of attributeChanged notifications within one
tick, the dirty set contains exactly the touched ids, each exactly once
(no matter how often it was mutated), in a stable (strictly increasing)
order; the attribute-change message flushed by sendStatus lists each
dirty id exactly once in that order. -/
theorem dirtySet_dedup_and_flush_order (muts : List Nat) :
    (∀ a, a ∈ dirtyAfter muts ↔ a ∈ muts) ∧
    (dirtyAfter muts).Pairwise (· < ·) ∧
    (∀ a, a ∈ muts → (dirtyAfter muts).count a = 1) ∧
    (∀ getB getM : Nat → Rat,
       ((sendStatus getB getM (dirtyAfter muts)).1.map Prod.fst) =
         dirtyAfter muts) := by
  have hmem : ∀ a, a ∈ dirtyAfter muts ↔ a ∈ muts := by
    intro a
    simpa [dirtyAfter] using dirty_foldl_mem muts [] a
  have hsorted : (dirtyAfter muts).Pairwise (· < ·) :=
    dirty_foldl_sorted muts [] (by simp)
  have hnodup : (dirtyAfter muts).Nodup :=
    hsorted.imp (fun h => Nat.ne_of_lt h)
  refine ⟨hmem, hsorted, fun a ha => ?_, fun getB getM => ?_⟩
  · exact List.count_eq_one_of_mem hnodup ((hmem a).mpr ha)
  · simp only [sendStatus, List.map_map]
    have hcomp :
        (Prod.fst ∘ fun attr : Nat => (attr, getB attr * 256, getM attr * 256)) =
          id := rfl
    rw [hcomp, List.map_id]

theorem dirtySet_dedup_and_flush_order_witness :
    (∀ a, a ∈ dirtyAfter [3, 1, 3, 2] ↔ a ∈ [3, 1, 3, 2]) ∧
    (dirtyAfter [3, 1, 3, 2]).Pairwise (· < ·) ∧
    (∀ a, a ∈ [3, 1, 3, 2] → (dirtyAfter [3, 1, 3, 2]).count a = 1) ∧
    (∀ getB getM : Nat → Rat,
       ((sendStatus getB getM (dirtyAfter [3, 1, 3, 2])).1.map Prod.fst) =
         dirtyAfter [3, 1, 3, 2]) :=
  dirtySet_dedup_and_flush_order [3, 1, 3, 2]

/-- C8: checkPermission returns PMR_UNKNOWN (never PMR_ALLOWED or
PMR_DENIED) for a name absent from the loaded table; for a declared name
it returns PMR_ALLOWED exactly when the actor's level bitmask intersects
the permission's mask and PMR_DENIED otherwise. -/
theorem checkPermission_spec (perms : List (String × Nat)) (lvl : Nat)
    (name : String) :
    (assocLookup perms name = none →
       checkPermission perms lvl name = .PMR_UNKNOWN) ∧
    (∀ mask, assocLookup perms name = some mask →
       (lvl.land mask ≠ 0 → checkPermission perms lvl name = .PMR_ALLOWED) ∧
       (lvl.land mask = 0 → checkPermission perms lvl name = .PMR_DENIED)) := by
  refine ⟨fun h => ?_, fun mask h => ⟨fun hm => ?_, fun hm => ?_⟩⟩
  · simp [checkPermission, h]
  · simp [checkPermission, h, hm]
  · simp [checkPermission, h, hm]

theorem checkPermission_spec_witness :
    checkPermission [("kick", 3)] 1 "ban" = .PMR_UNKNOWN ∧
    checkPermission [("kick", 3)] 1 "kick" = .PMR_ALLOWED ∧
    checkPermission [("kick", 3)] 4 "kick" = .PMR_DENIED :=
  ⟨(checkPermission_spec [("kick", 3)] 1 "ban").1 rfl,
   ((checkPermission_spec [("kick", 3)] 1 "kick").2 3 rfl).1 (by decide),
   ((checkPermission_spec [("kick", 3)] 4 "kick").2 3 rfl).2 (by decide)⟩

/-- The mask stored for a permission name, 0 when undeclared. -/
def lookupD (perms : List (String × Nat)) (name : String) : Nat :=
  (assocLookup perms name).getD 0

theorem assocLookup_addPermission_self (perms : List (String × Nat))
    (p : String) (m : Nat) :
    assocLookup (addPermission perms p m) p = some (lookupD perms p ||| m) := by
  induction perms with
  | nil => simp [addPermission, assocLookup, lookupD]
  | cons kv rest ih =>
      obtain ⟨k, v⟩ := kv
      by_cases hk : k = p
      · subst hk
        simp [addPermission, assocLookup, lookupD]
      · simp only [addPermission, if_neg hk, assocLookup, lookupD]
        exact ih

theorem assocLookup_addPermission_ne (perms : List (String × Nat))
    (p q : String) (m : Nat) (hpq : q ≠ p) :
    assocLookup (addPermission perms p m) q = assocLookup perms q := by
  induction perms with
  | nil => simp [addPermission, assocLookup, Ne.symm hpq]
  | cons kv rest ih =>
      obtain ⟨k, v⟩ := kv
      by_cases hk : k = p
      · subst hk
        simp [addPermission, assocLookup, Ne.symm hpq]
      · by_cases hq : k = q
        · subst hq
          simp [addPermission, if_neg hk, assocLookup]
        · simp only [addPermission, if_neg hk, assocLookup, if_neg hq]
          exact ih

theorem lookupD_addPermission_self (perms : List (String × Nat))
    (p : String) (m : Nat) :
    lookupD (addPermission perms p m) p = lookupD perms p ||| m := by
  simp [lookupD, assocLookup_addPermission_self]

theorem lookupD_applyPermNode (mask : Nat) (ps : List (String × Nat))
    (c : PermNode) (name : String) :
    lookupD (applyPermNode mask ps c) name = lookupD ps name ∨
    lookupD (applyPermNode mask ps c) name = lookupD ps name ||| mask := by
  unfold applyPermNode
  split_ifs with h
  · by_cases hn : name = c.content
    · subst hn
      exact Or.inr (lookupD_addPermission_self ps c.content mask)
    · exact Or.inl
        (by simp [lookupD, assocLookup_addPermission_ne ps c.content name mask hn])
  · exact Or.inl rfl

theorem lor_self_nat (n : Nat) : n ||| n = n := by
  apply Nat.eq_of_testBit_eq
  intro i
  simp [Nat.testBit_lor]

theorem foldl_applyPermNode_lookupD (mask : Nat) (children : List PermNode)
    (ps : List (String × Nat)) (name : String) :
    lookupD (children.foldl (applyPermNode mask) ps) name = lookupD ps name ∨
    lookupD (children.foldl (applyPermNode mask) ps) name =
      lookupD ps name ||| mask := by
  induction children generalizing ps with
  | nil => exact Or.inl rfl
  | cons c cs ih =>
      simp only [List.foldl_cons]
      rcases lookupD_applyPermNode mask ps c name with h0 | h0 <;>
        rcases ih (applyPermNode mask ps c) with h | h
      · exact Or.inl (h.trans h0)
      · exact Or.inr (by rw [h, h0])
      · exact Or.inr (h.trans h0)
      · exact Or.inr (by rw [h, h0, Nat.lor_assoc, lor_self_nat])

theorem foldl_applyPermNode_present (mask : Nat) (children : List PermNode)
    (name : String) (hname : name ≠ "")
    (hex : ∃ c ∈ children, c.tag = "allow" ∧ c.content = name) :
    ∀ ps, lookupD (children.foldl (applyPermNode mask) ps) name =
      lookupD ps name ||| mask := by
  induction children with
  | nil => simp at hex
  | cons c cs ih =>
      intro ps
      simp only [List.foldl_cons]
      rcases hex with ⟨d, hd, hdt, hdc⟩
      rcases List.mem_cons.mp hd with rfl | hmem
      · have hstep : applyPermNode mask ps d = addPermission ps name mask := by
          simp [applyPermNode, hdt, hdc, hname]
        rw [hstep]
        rcases foldl_applyPermNode_lookupD mask cs
            (addPermission ps name mask) name with h | h
        · rw [h, lookupD_addPermission_self]
        · rw [h, lookupD_addPermission_self, Nat.lor_assoc, lor_self_nat]
      · have hex2 : ∃ e ∈ cs, e.tag = "allow" ∧ e.content = name :=
          ⟨d, hmem, hdt, hdc⟩
        rcases lookupD_applyPermNode mask ps c name with h0 | h0
        · rw [ih hex2 (applyPermNode mask ps c), h0]
        · rw [ih hex2 (applyPermNode mask ps c), h0, Nat.lor_assoc,
              lor_self_nat]

/-- C9: a `class` declaration whose level lies outside 1..8 is skipped —
the table is unchanged by it and the remaining declarations are still
parsed; a declaration with in-range level L contributes only the single
bit `1 <<< (L-1)`: every name's mask either stays or gains exactly that
bit, and each allowed (non-empty) name does gain it. -/
theorem reload_skips_illegal_levels (perms : List (String × Nat))
    (c : ClassDecl) (pre post : List ClassDecl) :
    (c.tag = "class" → c.level < 1 ∨ c.level > 8 →
       processClassNode perms c = perms ∧
       reloadTable (pre ++ c :: post) perms = reloadTable (pre ++ post) perms) ∧
    (c.tag = "class" → 1 ≤ c.level → c.level ≤ 8 →
       (∀ name, lookupD (processClassNode perms c) name =
            lookupD perms name ∨
          lookupD (processClassNode perms c) name =
            lookupD perms name ||| (1 <<< (c.level - 1).toNat)) ∧
       (∀ d ∈ c.children, d.tag = "allow" → d.content ≠ "" →
          lookupD (processClassNode perms c) d.content =
            lookupD perms d.content ||| (1 <<< (c.level - 1).toNat))) := by
  constructor
  · intro htag hlvl
    have hskipAll : ∀ ps : List (String × Nat), processClassNode ps c = ps := by
      intro ps
      unfold processClassNode
      rw [if_neg (by simp [htag]), if_pos hlvl]
    refine ⟨hskipAll perms, ?_⟩
    unfold reloadTable
    rw [List.foldl_append, List.foldl_append, List.foldl_cons, hskipAll]
  · intro htag h1 h8
    have hproc : processClassNode perms c =
        c.children.foldl (applyPermNode (1 <<< (c.level - 1).toNat)) perms := by
      unfold processClassNode
      rw [if_neg (by simp [htag]), if_neg (by omega)]
    constructor
    · intro name
      rw [hproc]
      exact foldl_applyPermNode_lookupD _ _ _ _
    · intro d hd hdt hdc
      rw [hproc]
      exact foldl_applyPermNode_present _ _ _ hdc ⟨d, hd, hdt, rfl⟩ perms

theorem reload_skips_illegal_levels_witness :
    lookupD (processClassNode []
        { tag := "class", level := 3,
          children := [{ tag := "allow", content := "kick" },
                       { tag := "deny", content := "ban" }] }) "kick" =
      lookupD [] "kick" ||| (1 <<< (((3 : Int)) - 1).toNat) ∧
    processClassNode []
        { tag := "class", level := 0,
          children := [{ tag := "allow", content := "kick" }] } = [] ∧
    reloadTable
        ([] ++ ({ tag := "class", level := 0,
                  children := [{ tag := "allow", content := "kick" }] } :
                  ClassDecl) ::
          [({ tag := "class", level := 9, children := [] } : ClassDecl)]) [] =
      reloadTable ([] ++
        [({ tag := "class", level := 9, children := [] } : ClassDecl)]) [] :=
  ⟨((reload_skips_illegal_levels []
      { tag := "class", level := 3,
        children := [{ tag := "allow", content := "kick" },
                     { tag := "deny", content := "ban" }] } [] []).2
      rfl (by decide) (by decide)).2
      { tag := "allow", content := "kick" } (by simp) rfl (by decide),
   ((reload_skips_illegal_levels []
      { tag := "class", level := 0,
        children := [{ tag := "allow", content := "kick" }] } [] []).1
      rfl (by decide)).1,
   ((reload_skips_illegal_levels []
      { tag := "class", level := 0,
        children := [{ tag := "allow", content := "kick" }] } []
      [{ tag := "class", level := 9, children := [] }]).1
      rfl (by decide)).2⟩

end Manaserv
